import Mathlib

/-!
Shallow embedding of the episode mapping engine and correction workflow of
src/src/filebrowser.ts (class FileBrowser), together with proofs about it.

Filesystem access, the terminal prompt library and the TVDB metadata
provider are external collaborators; where a source function reads the
filesystem (readdir, stat), the embedding takes the directory listing as an
explicit argument.  All other logic is translated from the source.
-/

namespace SeriesRename

/-- Episode metadata as fetched from the provider (src/src/filebrowser.ts,
type Episode): only the fields the mapping engine reads are kept. -/
structure Episode where
  id : Nat
  airedSeason : Nat
  airedEpisodeNumber : Nat
  episodeName : String
deriving DecidableEq, Repr

/-- Series metadata (src/src/filebrowser.ts, type Series): the fields the
mapping engine reads. -/
structure Series where
  id : Nat
  seriesName : String
  episodes : List Episode
deriving DecidableEq, Repr

/-- The value part of an EpisodeMapping (src/src/filebrowser.ts, interface
EpisodeMapping).  `episode` and `episodeNumber` are `undefined` in the
source for an unchanged mapping, modelled with Option. -/
structure EpisodeMappingValue where
  originalPath : String
  updatedPath : String
  rename : Bool
  episode : Option Episode
  episodeNumber : Option String
  seasonNumber : Nat
  seasonFolder : String
deriving DecidableEq, Repr

/-- An EpisodeMapping: the prompt-option fields name/message plus the value
record (src/src/filebrowser.ts, interface EpisodeMapping extends
ArrayPromptOption). -/
structure EpisodeMapping where
  name : String
  message : String
  value : EpisodeMappingValue
deriving DecidableEq, Repr

/-- One value of the season-keyed SeasonMapping object
(src/src/filebrowser.ts, interface SeasonMapping). -/
structure SeasonEntry where
  folderName : String
  episodeMappings : List EpisodeMapping
deriving DecidableEq, Repr

/-- A SeasonMapping: a JS object keyed by season number, modelled as an
association list in key-insertion order. -/
abbrev SeasonMapping := List (Nat × SeasonEntry)

/-- node path.join for the two-argument, already-normalized case used by the
source (joining a directory with a plain file or folder name). -/
def pathJoin (a b : String) : String := a ++ "/" ++ b

/-- const videoFileExtensions (src/src/filebrowser.ts line 1044). -/
def videoFileExtensions : List String := [".mp4", ".mkv", ".avi"]

/-- node path.extname on a plain file name: the suffix from the last dot,
or the empty string when there is no dot or the only dot leads the name. -/
def extnameChars (s : List Char) : List Char :=
  let revTail := s.reverse.takeWhile (fun c => c != '.')
  if revTail.length = s.length then []
  else if (s.reverse.drop (revTail.length + 1)).isEmpty then []
  else '.' :: revTail.reverse

/-- node path.extname, on strings. -/
def extname (fileName : String) : String := (extnameChars fileName.toList).asString

/-- JS String.prototype.toLowerCase, for the ASCII extensions compared here. -/
def toLowerString (s : String) : String := (s.toList.map Char.toLower).asString

/-- The extension test the source performs before mapping a file
(src/src/filebrowser.ts lines 1905-1906). -/
def isVideoFile (fileName : String) : Bool :=
  videoFileExtensions.contains (toLowerString (extname fileName))

/-! ## Episode name parser (const episodeRegexes, lines 1045-1049, and the
matching loop of generateEpisodeName, lines 1911-1920)

A JS regex match scans left to right for the first position where the whole
pattern matches; for /[eE]\d+/ that is the first e or E followed by at least
one digit, the digit run taken greedily.  `numberStart` 1 drops the letter,
so in every case the parsed text is exactly the digit run. -/

/-- First match of a character-class-then-digits regex such as /[eE]\d+/:
returns the digit run after the letter. -/
def matchLetterDigits (letters : List Char) : List Char → Option (List Char)
  | [] => none
  | c :: rest =>
    if letters.contains c ∧ rest.takeWhile Char.isDigit ≠ [] then
      some (rest.takeWhile Char.isDigit)
    else matchLetterDigits letters rest

/-- First match of /\d+/: the first maximal digit run. -/
def matchDigitRun : List Char → Option (List Char)
  | [] => none
  | c :: rest =>
    if c.isDigit then some (c :: rest.takeWhile Char.isDigit)
    else matchDigitRun rest

/-- JS parseInt on a string of decimal digits. -/
def digitsToNat (ds : List Char) : Nat :=
  ds.foldl (fun acc c => acc * 10 + (c.toNat - 48)) 0

/-- The parsing loop of generateEpisodeName (lines 1913-1919): the three
patterns of episodeRegexes tried in order, stopping at the first match. -/
def parseEpisodeNumber (fileName : String) : Option Nat :=
  match matchLetterDigits ['e', 'E'] fileName.toList with
  | some ds => some (digitsToNat ds)
  | none =>
    match matchLetterDigits ['x', 'X'] fileName.toList with
    | some ds => some (digitsToNat ds)
    | none =>
      match matchDigitRun fileName.toList with
      | some ds => some (digitsToNat ds)
      | none => none

/-! ## Filename sanitizer (const episodeReplaces, lines 1050-1066, applied
by generateEpisodeFileName, lines 1981-1994) -/

/-- The replacement text of the double-quote rule: a single-quote
character, written by code point. -/
def singleQuoteChar : Char := Char.ofNat 39

/-- const episodeReplaces: the ordered substitution table.  Each source
entry is a /pattern/g literal-string regex with a replacement; both are
kept as character lists. -/
def episodeReplaces : List (List Char × List Char) :=
  [ (['ä'], ['a', 'e'])
  , (['ö'], ['o', 'e'])
  , (['ü'], ['u', 'e'])
  , (['ß'], ['s', 's'])
  , (['Ä'], ['A', 'E'])
  , (['Ö'], ['O', 'E'])
  , (['Ü'], ['U', 'E'])
  , (['?'], [])
  , ([','], [])
  , ([':', ' '], ['-'])
  , ([':'], ['-'])
  , (['"'], [singleQuoteChar])
  , ([' '], ['.'])
  , (['/'], ['_'])
  , (['\t'], []) ]

/-- The scanning loop of a global replace, structurally recursive on a
fuel that bounds the number of characters still to be scanned; each step
consumes at least one character, so fuel s.length never runs out and the
fuel-exhausted arm is unreachable. -/
def replaceAllAux (pat rep : List Char) : Nat → List Char → List Char
  | _, [] => []
  | 0, c :: rest => c :: rest
  | fuel + 1, c :: rest =>
    if pat ≠ [] ∧ pat.isPrefixOf (c :: rest) then
      rep ++ replaceAllAux pat rep fuel (rest.drop (pat.length - 1))
    else
      c :: replaceAllAux pat rep fuel rest

/-- JS String.prototype.replace with a /.../g literal pattern: every
leftmost, non-overlapping occurrence of `pat` is replaced by `rep`. -/
def replaceAll (pat rep s : List Char) : List Char :=
  replaceAllAux pat rep s.length s

/-- The for-loop of generateEpisodeFileName over episodeReplaces,
generalized to any substitution table. -/
def applyReplaces (rs : List (List Char × List Char)) (s : List Char) : List Char :=
  rs.foldl (fun acc pr => replaceAll pr.1 pr.2 acc) s

/-- The sanitizer: episodeReplaces applied in order to a string. -/
def sanitizeFileName (s : String) : String :=
  (applyReplaces episodeReplaces s.toList).asString

/-! ## Episode number labels (twoZero, threeZero, generateEpisodeNumber,
lines 1958-2010) -/

/-- twoZero (lines 1996-2002). -/
def twoZero (input : Nat) : String :=
  if input < 10 then "0" ++ toString input else toString input

/-- threeZero (lines 2004-2010). -/
def threeZero (input : Nat) : String :=
  if input < 100 then "0" ++ twoZero input else toString input

/-- generateEpisodeNumber (lines 1958-1963). -/
def generateEpisodeNumber (episodeNumber episodesInSeason : Nat) : String :=
  if episodesInSeason < 100 then twoZero episodeNumber else threeZero episodeNumber

/-- generateEpisodeFileName (lines 1981-1994): the template
series.S<season>E<ordinal>.<title><extension>, then the substitution
table. -/
def generateEpisodeFileName (fileExtension seriesName : String) (seasonNumber : Nat)
    (episodeName : String) (episodeNumber episodesInSeason : Nat) : String :=
  sanitizeFileName
    (seriesName ++ ".S" ++ twoZero seasonNumber ++ "E"
      ++ generateEpisodeNumber episodeNumber episodesInSeason
      ++ "." ++ episodeName ++ fileExtension)

/-! ## Mapping construction (unchangedEpisodeMapping, generateEpisodeName,
lines 1897-1979) -/

/-- unchangedEpisodeMapping (lines 1965-1979). -/
def unchangedEpisodeMapping (seasonFolder : String) (seasonNumber : Nat)
    (fileName : String) : EpisodeMapping :=
  { name := fileName
  , message := "--- " ++ fileName
  , value :=
    { originalPath := pathJoin seasonFolder fileName
    , updatedPath := pathJoin seasonFolder fileName
    , episode := none
    , rename := false
    , episodeNumber := none
    , seasonNumber := seasonNumber
    , seasonFolder := seasonFolder } }

/-- generateEpisodeName (lines 1897-1956).  forceEpisodeNumber is the
optional episode number a manual reassignment passes instead of parsing
the file name. -/
def generateEpisodeName (seriesName seasonFolder : String) (seasonNumber : Nat)
    (fileName : String) (episodesInSeason : List Episode)
    (forceEpisodeNumber : Option Nat) : EpisodeMapping :=
  let fileExtension := toLowerString (extname fileName)
  if ¬ videoFileExtensions.contains fileExtension then
    unchangedEpisodeMapping seasonFolder seasonNumber fileName
  else
    let episodeNumber :=
      match forceEpisodeNumber with
      | some n => some n
      | none => parseEpisodeNumber fileName
    match episodeNumber with
    | none => unchangedEpisodeMapping seasonFolder seasonNumber fileName
    | some n =>
      match episodesInSeason.find? (fun episode => episode.airedEpisodeNumber == n) with
      | none => unchangedEpisodeMapping seasonFolder seasonNumber fileName
      | some episode =>
        let prefixedEpisodeNumber := generateEpisodeNumber n episodesInSeason.length
        let sanatizedName := generateEpisodeFileName fileExtension seriesName
          episode.airedSeason episode.episodeName episode.airedEpisodeNumber
          episodesInSeason.length
        { name := sanatizedName
        , message := "E" ++ prefixedEpisodeNumber ++ ": " ++ fileName ++ " > " ++ sanatizedName
        , value :=
          { originalPath := pathJoin seasonFolder fileName
          , updatedPath := pathJoin seasonFolder sanatizedName
          , episode := some episode
          , rename := fileName != sanatizedName
          , episodeNumber := some prefixedEpisodeNumber
          , seasonNumber := seasonNumber
          , seasonFolder := seasonFolder } }

/-! ## Season mapping construction and ordering (sortEpisodeMappings,
generateEpisodeNamesForSeason, generateEpisodeNames, lines 1825-1895) -/

/-- sortEpisodeMappings (lines 1873-1895): the comparator passed to
Array.prototype.sort.  Negative puts the first argument first. -/
def sortEpisodeMappings (episodeMapping1 episodeMapping2 : EpisodeMapping) : Int :=
  match episodeMapping1.value.episode, episodeMapping2.value.episode with
  | none, none => 0
  | none, some _ => 1
  | some _, none => -1
  | some e1, some e2 =>
    if e1.airedEpisodeNumber = e2.airedEpisodeNumber then 0
    else (e1.airedEpisodeNumber : Int) - (e2.airedEpisodeNumber : Int)

/-- Insertion of one element into a list sorted by the comparator, keeping
earlier-inserted equal elements after it only when strictly greater. -/
def orderedInsertMapping (a : EpisodeMapping) : List EpisodeMapping → List EpisodeMapping
  | [] => [a]
  | b :: l =>
    if sortEpisodeMappings a b ≤ 0 then a :: b :: l
    else b :: orderedInsertMapping a l

/-- JS Array.prototype.sort with the sortEpisodeMappings comparator.  The
ECMAScript sort is stable and the comparator is induced by a total
preorder, so any stable sort — here an insertion sort processing the list
front to back — produces the same output array. -/
def sortMappings : List EpisodeMapping → List EpisodeMapping
  | [] => []
  | a :: l => orderedInsertMapping a (sortMappings l)

/-- generateEpisodeNamesForSeason (lines 1858-1871).  The directory listing
of the season folder is passed in as filesInSeasonFolder (the source reads
it with getFileNames).  The source also filters out undefined entries;
generateEpisodeName always returns a mapping, so that filter keeps
everything. -/
def generateEpisodeNamesForSeason (seasonFolder : String) (season : Nat)
    (seriesDetails : Series) (filesInSeasonFolder : List String) : List EpisodeMapping :=
  let episodesInSeason := seriesDetails.episodes.filter
    (fun episode => episode.airedSeason == season)
  sortMappings (filesInSeasonFolder.map (fun fileName =>
    generateEpisodeName seriesDetails.seriesName seasonFolder season fileName
      episodesInSeason none))

/-- A folder name with the season number parsed from it (type
FolderSeasonMatch, lines 1018-1021). -/
structure FolderSeasonMatch where
  folderName : String
  season : Nat
deriving DecidableEq, Repr

/-- The season number of a folder: const seasonRegex = /\d+/ matched
against the folder name, parseInt on the first maximal digit run
(lines 1828-1837). -/
def parseSeasonNumber (folderName : String) : Option Nat :=
  (matchDigitRun folderName.toList).map digitsToNat

/-- Lines 1829-1840: map each subfolder to its FolderSeasonMatch and drop
those without a parsable number (the source maps them to undefined and
filters; filterMap fuses the two steps). -/
def seasonFoldersOf (folders : List String) : List FolderSeasonMatch :=
  folders.filterMap (fun folderName =>
    (parseSeasonNumber folderName).map (fun season =>
      { folderName := folderName, season := season }))

/-- JS object assignment result[season] = v on an integer-keyed object,
modelled on the association list: overwrite an existing key, else append. -/
def insertSeasonEntry (acc : SeasonMapping) (k : Nat) (v : SeasonEntry) : SeasonMapping :=
  if acc.any (fun p => p.1 == k) then
    acc.map (fun p => if p.1 == k then (k, v) else p)
  else acc ++ [(k, v)]

/-- The SeasonMapping value built for one season folder (lines
1842-1852). -/
def seasonEntryFor (seriesDirectory : String) (seriesDetails : Series)
    (filesOf : String → List String) (folderSeasonInfo : FolderSeasonMatch) : SeasonEntry :=
  let seasonFolder := pathJoin seriesDirectory folderSeasonInfo.folderName
  { folderName := folderSeasonInfo.folderName
  , episodeMappings := generateEpisodeNamesForSeason seasonFolder
      folderSeasonInfo.season seriesDetails (filesOf seasonFolder) }

/-- generateEpisodeNames (lines 1825-1856), the season-mapping builder.
The subfolder listing of the series directory and the per-folder file
listings are passed in (the source reads them with getFolderNames and
getFileNames). -/
def generateEpisodeNames (seriesDirectory : String) (seriesDetails : Series)
    (folders : List String) (filesOf : String → List String) : SeasonMapping :=
  (seasonFoldersOf folders).foldl (fun acc folderSeasonInfo =>
    insertSeasonEntry acc folderSeasonInfo.season
      (seasonEntryFor seriesDirectory seriesDetails filesOf folderSeasonInfo)) []

/-! ## Batch rename executor (renameEpisodes, lines 1572-1586)

The source fans out one fsPromises.rename per mapping with rename not
false, incrementing renamedFileCount synchronously as each call is issued,
and awaits Promise.all before logging the count.  There is no try/catch:
every rename is issued regardless of the others (all are started before
any await), but a single rejection makes Promise.all reject and the
count log is skipped.  `fs` models the outcome of one rename call. -/

structure RenameResult where
  /-- The (originalPath, updatedPath) pairs passed to fsPromises.rename, in
  issue order; every rename-flagged item appears whether or not a sibling
  fails. -/
  attempted : List (String × String)
  /-- renamedFileCount after the loop. -/
  renamedFileCount : Nat
  /-- some count when the final console.log line ran (Promise.all
  resolved), none when a rejection skipped it. -/
  reportedCount : Option Nat
deriving DecidableEq, Repr

/-- renameEpisodes (lines 1572-1586). -/
def renameEpisodes (fs : String → String → Bool) (episodeRenames : SeasonMapping) :
    RenameResult :=
  let episodeMappings := (episodeRenames.map (fun p => p.2.episodeMappings)).flatten
  let toRename := episodeMappings.filter (fun episodeMapping => episodeMapping.value.rename)
  let attempted := toRename.map (fun episodeMapping =>
    (episodeMapping.value.originalPath, episodeMapping.value.updatedPath))
  let renamedFileCount := toRename.length
  let allSucceeded := attempted.all (fun pr => fs pr.1 pr.2)
  { attempted := attempted
  , renamedFileCount := renamedFileCount
  , reportedCount := if allSucceeded then some renamedFileCount else none }

/-! ## Correction workflow state machine (currentPrompt, the prompt
functions and the keypress handlers, lines 1068-1793)

Cancellation reaches the code on two channels: a backspace keypress hits
the handleKeyPress dispatch (lines 1655-1793), and an escape aborts the
live prompt, rejecting its run() promise and landing in the catch block of
the prompt function (the footers document esc = abort).  Both channels are
read off the source per state below. -/

inductive PromptState
  | folderSelection
  | rename
  | createFolder
  | deleteFolder
  | moveFolder
  | hoistFiles
  | nonVideoPurge
  | seriesLanguage
  | seriesName
  | seriesSuggestions
  | episodeRenames
  | assignEpisode
deriving DecidableEq, Repr

inductive CancelEvent
  | escape
  | backspace
deriving DecidableEq, Repr

/-- The state entered when a cancellation event occurs in each state; none
when the event causes no transition (backspace inside a text input edits
the text).  escape entries come from each prompt function's catch block,
backspace entries from the keypress handlers. -/
def cancelReturnState : PromptState → CancelEvent → Option PromptState
  | .rename, .escape => some .folderSelection          -- line 1181
  | .createFolder, .escape => some .folderSelection    -- line 1205
  | .deleteFolder, .escape => some .folderSelection    -- line 1232
  | .moveFolder, _ => some .folderSelection            -- lines 1331, 1734
  | .hoistFiles, _ => some .folderSelection            -- lines 1274, 1742
  | .nonVideoPurge, _ => some .folderSelection         -- lines 1368, 1750
  | .seriesLanguage, _ => some .folderSelection        -- lines 1409, 1758
  | .seriesName, .escape => some .seriesLanguage       -- line 1433
  | .seriesSuggestions, _ => some .seriesName          -- lines 1474, 1766
  | .episodeRenames, .escape => some .seriesName       -- line 1512
  | .episodeRenames, .backspace => some .seriesSuggestions -- line 1774
  | .assignEpisode, .escape => some .seriesName        -- line 1565
  | .assignEpisode, .backspace => some .episodeRenames -- line 1788
  | _, _ => none

/-- Entering promptSeriesLanguage (line 1385) or promptSeriesSuggestions
(line 1443) sets currentEpisodeRenames to undefined; no other prompt
function touches it on entry (promptEpisodeRenames rebuilds it only when
it is undefined, line 1484). -/
def entryResetsEpisodeRenames : PromptState → Bool
  | .seriesLanguage => true
  | .seriesSuggestions => true
  | _ => false

/-- The workflow fields a cancellation can affect: the active prompt and
the currentEpisodeRenames structure. -/
structure WorkflowState where
  prompt : PromptState
  currentEpisodeRenames : Option SeasonMapping
deriving DecidableEq, Repr

/-- One cancellation step: move to the return state (if the event causes a
transition) and apply the entered prompt function's effect on
currentEpisodeRenames. -/
def cancelStep (w : WorkflowState) (e : CancelEvent) : WorkflowState :=
  match cancelReturnState w.prompt e with
  | none => w
  | some target =>
    { prompt := target
    , currentEpisodeRenames :=
        if entryResetsEpisodeRenames target then none else w.currentEpisodeRenames }

/-! ## Move-folder destination guard (promptMoveFolder, lines 1283-1336) -/

/-- A prompt option as promptMoveFolder builds one; the source stores
false or an explanatory string in disabled, read for truthiness, modelled
as a Bool. -/
structure PromptOption where
  name : String
  message : String
  value : String
  disabled : Bool
deriving DecidableEq, Repr

/-- JS String.prototype.startsWith. -/
def strStartsWith (s pre : String) : Bool := pre.toList.isPrefixOf s.toList

/-- The candidate option promptMoveFolder builds for one subfolder of the
currently browsed directory (lines 1296-1303): disabled when the
candidate destination path starts with the path of the folder being
moved. -/
def moveFolderOption (currentDirectory folderToMove folderName : String) : PromptOption :=
  let targetIsInsideSelf := strStartsWith (pathJoin currentDirectory folderName) folderToMove
  { name := folderName
  , message := folderName
  , value := folderName
  , disabled := targetIsInsideSelf }

/-! ## Lemmas about the sanitizer -/

/-- An empty pattern never matches under the guard, so replacement is the
identity, whatever the fuel. -/
theorem replaceAllAux_nil_pat (rep : List Char) :
    ∀ (n : Nat) (s : List Char), replaceAllAux [] rep n s = s := by
  intro n
  induction n with
  | zero => intro s; cases s <;> rfl
  | succ n ih =>
    intro s
    cases s with
    | nil => rfl
    | cons c rest =>
      rw [replaceAllAux, if_neg (fun h => h.1 rfl), ih]

/-- Every character of a replaced string comes from the input or from the
replacement text. -/
theorem mem_of_mem_replaceAllAux (pat rep : List Char) :
    ∀ (n : Nat) (s : List Char), ∀ c ∈ replaceAllAux pat rep n s, c ∈ s ∨ c ∈ rep := by
  intro n
  induction n with
  | zero =>
    intro s c hc
    cases s with
    | nil => cases hc
    | cons b rest => exact Or.inl hc
  | succ n ih =>
    intro s c hc
    match s with
    | [] => cases hc
    | b :: rest =>
      rw [replaceAllAux] at hc
      split at hc
      · rcases List.mem_append.mp hc with h | h
        · exact Or.inr h
        · rcases ih _ c h with h2 | h2
          · exact Or.inl (List.mem_cons_of_mem _ (List.drop_subset _ _ h2))
          · exact Or.inr h2
      · rcases List.mem_cons.mp hc with h | h
        · exact Or.inl (h ▸ List.mem_cons_self _ _)
        · rcases ih _ c h with h2 | h2
          · exact Or.inl (List.mem_cons_of_mem _ h2)
          · exact Or.inr h2

/-- Every character of a replaced string comes from the input or from the
replacement text. -/
theorem mem_of_mem_replaceAll (pat rep : List Char) (s : List Char) :
    ∀ c ∈ replaceAll pat rep s, c ∈ s ∨ c ∈ rep :=
  mem_of_mem_replaceAllAux pat rep s.length s

/-- An empty pattern never matches under the guard, so replacement is the
identity. -/
theorem replaceAll_nil_pat (rep : List Char) (s : List Char) : replaceAll [] rep s = s :=
  replaceAllAux_nil_pat rep s.length s

/-- Replacing a single character by text not containing it removes it
(with enough fuel to scan the whole string). -/
theorem not_mem_replaceAllAux_single (c : Char) (rep : List Char) (hrep : c ∉ rep) :
    ∀ (n : Nat) (s : List Char), s.length ≤ n → c ∉ replaceAllAux [c] rep n s := by
  intro n
  induction n with
  | zero =>
    intro s hs
    have : s = [] := List.eq_nil_of_length_eq_zero (Nat.le_zero.mp hs)
    subst this
    exact List.not_mem_nil c
  | succ n ih =>
    intro s hs hc
    match s with
    | [] => cases hc
    | b :: rest =>
      rw [replaceAllAux] at hc
      split at hc
      · next hcond =>
        rcases List.mem_append.mp hc with h | h
        · exact hrep h
        · have hlen : (rest.drop (List.length [c] - 1)).length ≤ n := by
            simp only [List.length_drop]
            simp only [List.length_cons] at hs
            omega
          exact ih _ hlen h
      · next hcond =>
        have hne : c ≠ b := by
          intro hcb
          exact hcond ⟨by simp, by simp [List.isPrefixOf, hcb.symm]⟩
        rcases List.mem_cons.mp hc with h | h
        · exact hne h
        · have hlen : rest.length ≤ n := by
            simp only [List.length_cons] at hs
            omega
          exact ih _ hlen h

/-- Replacing a single character by text not containing it removes it. -/
theorem not_mem_replaceAll_single (c : Char) (rep : List Char) (hrep : c ∉ rep)
    (s : List Char) : c ∉ replaceAll [c] rep s :=
  not_mem_replaceAllAux_single c rep hrep s.length s le_rfl

/-- A pattern whose first character does not occur in the string never
matches, so replacement is the identity, whatever the fuel. -/
theorem replaceAllAux_of_head_not_mem (p : Char) (ps rep : List Char) :
    ∀ (n : Nat) (s : List Char), p ∉ s → replaceAllAux (p :: ps) rep n s = s := by
  intro n
  induction n with
  | zero => intro s _; cases s <;> rfl
  | succ n ih =>
    intro s hp
    cases s with
    | nil => rfl
    | cons b rest =>
      have hpb : ¬ (p = b) := fun h => hp (h ▸ List.mem_cons_self _ _)
      have hcond : ¬ ((p :: ps) ≠ [] ∧ (p :: ps).isPrefixOf (b :: rest)) := by
        intro h
        rcases h with ⟨-, hpre⟩
        simp only [List.isPrefixOf, Bool.and_eq_true, beq_iff_eq] at hpre
        exact hpb hpre.1
      rw [replaceAllAux, if_neg hcond, ih rest (fun h => hp (List.mem_cons_of_mem _ h))]

/-- A pattern whose first character does not occur in the string never
matches, so replacement is the identity. -/
theorem replaceAll_of_head_not_mem (p : Char) (ps rep : List Char)
    (s : List Char) (hp : p ∉ s) : replaceAll (p :: ps) rep s = s :=
  replaceAllAux_of_head_not_mem p ps rep s.length s hp

/-- A character absent from the input and from every replacement text stays
absent through a whole substitution table. -/
theorem not_mem_applyReplaces_of_not_mem (c : Char) :
    ∀ (rs : List (List Char × List Char)) (s : List Char),
      (∀ pr ∈ rs, c ∉ pr.2) → c ∉ s → c ∉ applyReplaces rs s := by
  intro rs
  induction rs with
  | nil => intro s _ hs; exact hs
  | cons pr rest ih =>
    intro s hall hs
    show c ∉ applyReplaces rest (replaceAll pr.1 pr.2 s)
    refine ih _ (fun q hq => hall q (List.mem_cons_of_mem _ hq)) ?_
    intro hmem
    rcases mem_of_mem_replaceAll pr.1 pr.2 s c hmem with h | h
    · exact hs h
    · exact hall pr (List.mem_cons_self _ _) h

/-- There is a single-character pass for c whose replacement avoids c, and
no later pass reintroduces c. -/
def eliminatedBy (c : Char) : List (List Char × List Char) → Bool
  | [] => false
  | (pat, rep) :: rest =>
    (pat == [c] && rep.all (fun d => d != c)
      && rest.all (fun pr => pr.2.all (fun d => d != c)))
    || eliminatedBy c rest

/-- A character with an eliminating pass is absent from the output of the
substitution table, whatever the input. -/
theorem not_mem_applyReplaces_of_eliminatedBy (c : Char) :
    ∀ (rs : List (List Char × List Char)), eliminatedBy c rs = true →
      ∀ s : List Char, c ∉ applyReplaces rs s := by
  intro rs
  induction rs with
  | nil => intro h; cases h
  | cons pr rest ih =>
    intro h s
    match pr with
    | (pat, rep) =>
      rw [eliminatedBy] at h
      rcases Bool.or_eq_true _ _ |>.mp h with h1 | h2
      · have hpat : pat = [c] := by
          have := (Bool.and_eq_true _ _).mp ((Bool.and_eq_true _ _).mp h1).1
          exact eq_of_beq this.1
        have hrep : c ∉ rep := by
          have := (Bool.and_eq_true _ _).mp ((Bool.and_eq_true _ _).mp h1).1
          intro hmem
          have := List.all_eq_true.mp this.2 c hmem
          simp at this
        have hrest : ∀ q ∈ rest, c ∉ q.2 := by
          have := ((Bool.and_eq_true _ _).mp h1).2
          intro q hq hmem
          have := List.all_eq_true.mp (List.all_eq_true.mp this q hq) c hmem
          simp at this
        show c ∉ applyReplaces rest (replaceAll pat rep s)
        refine not_mem_applyReplaces_of_not_mem c rest _ hrest ?_
        rw [hpat]
        exact not_mem_replaceAll_single c rep hrep s
      · exact ih h2 (replaceAll pat rep s)

/-- The first characters of the patterns of a substitution table. -/
def headsOf (rs : List (List Char × List Char)) : List Char :=
  rs.filterMap (fun pr => pr.1.head?)

/-- A substitution table none of whose patterns can start matching is the
identity. -/
theorem applyReplaces_eq_self_of_heads_not_mem :
    ∀ (rs : List (List Char × List Char)) (t : List Char),
      (∀ p ∈ headsOf rs, p ∉ t) → applyReplaces rs t = t := by
  intro rs
  induction rs with
  | nil => intro t _; rfl
  | cons pr rest ih =>
    intro t h
    have h1 : replaceAll pr.1 pr.2 t = t := by
      match hp : pr.1 with
      | [] => exact replaceAll_nil_pat pr.2 t
      | p :: ps =>
        refine replaceAll_of_head_not_mem p ps pr.2 t (h p ?_)
        refine List.mem_filterMap.mpr ⟨pr, List.mem_cons_self _ _, ?_⟩
        rw [hp]
        rfl
    show applyReplaces rest (replaceAll pr.1 pr.2 t) = t
    rw [h1]
    refine ih t (fun p hp => h p ?_)
    simp only [headsOf, List.filterMap_cons] at hp ⊢
    cases hh : pr.1.head? with
    | none => simpa [hh] using hp
    | some q => exact List.mem_cons_of_mem _ hp

/-- The character set of the C3 claim: every one of these must be gone from
a sanitized name. -/
def badChars : List Char :=
  ['ä', 'ö', 'ü', 'ß', 'Ä', 'Ö', 'Ü', '?', '"', ':', ' ', '\t', '/']

/-- Every claim character, and the comma the table also strips, has an
eliminating pass in episodeReplaces. -/
theorem badChars_eliminated :
    ∀ c ∈ badChars ++ [','], eliminatedBy c episodeReplaces = true := by decide

/-- Every pattern of episodeReplaces starts with a character the table
eliminates. -/
theorem episodeReplaces_heads :
    ∀ p ∈ headsOf episodeReplaces, p ∈ badChars ++ [','] := by decide

/-- No eliminated character survives sanitization. -/
theorem not_mem_sanitized (c : Char) (hc : c ∈ badChars ++ [',']) (s : List Char) :
    c ∉ applyReplaces episodeReplaces s :=
  not_mem_applyReplaces_of_eliminatedBy c episodeReplaces (badChars_eliminated c hc) s

/-- Turning a character list into a string and back is the identity. -/
theorem toList_asString (l : List Char) : (l.asString).toList = l := rfl

/-- Unfolding equation of the sanitizer. -/
theorem sanitizeFileName_def (t : String) :
    sanitizeFileName t = (applyReplaces episodeReplaces t.toList).asString := rfl

/-- Sanitization is idempotent: its output contains no character any
pattern could start matching at. -/
theorem sanitizeFileName_idempotent (s : String) :
    sanitizeFileName (sanitizeFileName s) = sanitizeFileName s := by
  rw [sanitizeFileName_def, sanitizeFileName_def, toList_asString,
    applyReplaces_eq_self_of_heads_not_mem episodeReplaces _
      (fun p hp => not_mem_sanitized p (episodeReplaces_heads p hp) s.toList)]

/-- C3: for every input string containing any character in
{ä, ö, ü, ß, Ä, Ö, Ü, ?, double quote, colon, space, tab, slash}, the
sanitizer output contains none of those characters, sanitizing the output
again returns it unchanged (idempotence), and in the substitution table the
colon-space and colon rules come strictly before the space-to-dot rule. -/
theorem sanitizer_removes_and_idempotent (s : String) (c : Char)
    (hc : c ∈ badChars) (_hcs : c ∈ s.toList) :
    c ∉ (sanitizeFileName s).toList
    ∧ sanitizeFileName (sanitizeFileName s) = sanitizeFileName s
    ∧ episodeReplaces.findIdx (fun pr => pr.1 == [':', ' '])
        < episodeReplaces.findIdx (fun pr => pr.1 == [' '])
    ∧ episodeReplaces.findIdx (fun pr => pr.1 == [':'])
        < episodeReplaces.findIdx (fun pr => pr.1 == [' ']) := by
  refine ⟨?_, sanitizeFileName_idempotent s, by decide, by decide⟩
  rw [sanitizeFileName_def, toList_asString]
  exact not_mem_sanitized c (List.mem_append.mpr (Or.inl hc)) s.toList

/-- Witness for C3 at a concrete input. -/
theorem sanitizer_removes_and_idempotent_witness :
    'ä' ∉ (sanitizeFileName "Tür auf: bäld?").toList
    ∧ sanitizeFileName (sanitizeFileName "Tür auf: bäld?") = sanitizeFileName "Tür auf: bäld?"
    ∧ episodeReplaces.findIdx (fun pr => pr.1 == [':', ' '])
        < episodeReplaces.findIdx (fun pr => pr.1 == [' '])
    ∧ episodeReplaces.findIdx (fun pr => pr.1 == [':'])
        < episodeReplaces.findIdx (fun pr => pr.1 == [' ']) :=
  sanitizer_removes_and_idempotent "Tür auf: bäld?" 'ä' (by decide) (by decide)

/-! ## Lemmas about the episode number parser -/

/-- A letter-then-digits pattern needs a digit. -/
theorem matchLetterDigits_eq_none (letters : List Char) :
    ∀ s : List Char, (∀ ch ∈ s, ch.isDigit = false) →
      matchLetterDigits letters s = none := by
  intro s
  induction s with
  | nil => intro _; rfl
  | cons c rest ih =>
    intro h
    rw [matchLetterDigits]
    have htw : rest.takeWhile Char.isDigit = [] := by
      cases rest with
      | nil => rfl
      | cons d r =>
        rw [List.takeWhile_cons, h d (List.mem_cons_of_mem _ (List.mem_cons_self _ _))]
        simp
    rw [if_neg (fun hcond => hcond.2 htw)]
    exact ih (fun ch hch => h ch (List.mem_cons_of_mem _ hch))

/-- The bare-digits pattern needs a digit. -/
theorem matchDigitRun_eq_none :
    ∀ s : List Char, (∀ ch ∈ s, ch.isDigit = false) → matchDigitRun s = none := by
  intro s
  induction s with
  | nil => intro _; rfl
  | cons c rest ih =>
    intro h
    rw [matchDigitRun, if_neg]
    · exact ih (fun ch hch => h ch (List.mem_cons_of_mem _ hch))
    · simp [h c (List.mem_cons_self _ _)]

/-- C4: the parser tries letter-E-then-digits, then letter-x-then-digits,
then a bare digit run, in that order, stopping at the first match; it
extracts 7 from the three sample names; on names where two patterns match
the earlier pattern wins; and with no digits at all nothing matches and no
episode number is produced. -/
theorem episode_parser_spec :
    parseEpisodeNumber "Show.E07.mkv" = some 7
    ∧ parseEpisodeNumber "Show.7x07.mkv" = some 7
    ∧ parseEpisodeNumber "Show.07.mkv" = some 7
    ∧ parseEpisodeNumber "a1x2e3.avi" = some 3
    ∧ parseEpisodeNumber "a1x2b.avi" = some 2
    ∧ parseEpisodeNumber "Show.mkv" = none
    ∧ ∀ s : String, (∀ ch ∈ s.toList, ch.isDigit = false) → parseEpisodeNumber s = none := by
  refine ⟨by decide, by decide, by decide, by decide, by decide, by decide, ?_⟩
  intro s h
  rw [parseEpisodeNumber, matchLetterDigits_eq_none _ _ h,
    matchLetterDigits_eq_none _ _ h, matchDigitRun_eq_none _ h]

/-! ## Lemmas about episode number labels and generated file names -/

set_option maxRecDepth 4000 in
/-- twoZero pads every number below 100 to exactly two digits. -/
theorem twoZero_length : ∀ n < 100, (twoZero n).length = 2 := by decide

set_option maxRecDepth 40000 in
/-- threeZero pads every number below 1000 to exactly three digits. -/
theorem threeZero_length : ∀ n < 1000, (threeZero n).length = 3 := by decide

/-- C5: the episode ordinal is two digits for seasons under 100 episodes
and three digits otherwise, with the two sample values of the spec; and
for a matched video file the proposed name is the season folder joined
with the sanitized series.S..E...title.extension template. -/
theorem episode_number_and_filename_spec :
    generateEpisodeNumber 7 45 = "07"
    ∧ generateEpisodeNumber 7 150 = "007"
    ∧ (∀ episodesInSeason n : Nat, episodesInSeason < 100 → n < 100 →
        (generateEpisodeNumber n episodesInSeason).length = 2)
    ∧ (∀ episodesInSeason n : Nat, 100 ≤ episodesInSeason → n < 1000 →
        (generateEpisodeNumber n episodesInSeason).length = 3)
    ∧ (∀ (seriesName seasonFolder fileName : String) (seasonNumber n : Nat)
        (episodesInSeason : List Episode) (episode : Episode),
        isVideoFile fileName = true →
        parseEpisodeNumber fileName = some n →
        episodesInSeason.find? (fun e => e.airedEpisodeNumber == n) = some episode →
        (generateEpisodeName seriesName seasonFolder seasonNumber fileName
            episodesInSeason none).value.updatedPath
          = pathJoin seasonFolder
              (generateEpisodeFileName (toLowerString (extname fileName)) seriesName
                episode.airedSeason episode.episodeName episode.airedEpisodeNumber
                episodesInSeason.length)
        ∧ generateEpisodeFileName (toLowerString (extname fileName)) seriesName
            episode.airedSeason episode.episodeName episode.airedEpisodeNumber
            episodesInSeason.length
          = sanitizeFileName (seriesName ++ ".S" ++ twoZero episode.airedSeason ++ "E"
              ++ generateEpisodeNumber episode.airedEpisodeNumber episodesInSeason.length
              ++ "." ++ episode.episodeName ++ toLowerString (extname fileName))) := by
  refine ⟨by decide, by decide, ?_, ?_, ?_⟩
  · intro cnt n hcnt hn
    rw [generateEpisodeNumber, if_pos hcnt]
    exact twoZero_length n hn
  · intro cnt n hcnt hn
    rw [generateEpisodeNumber, if_neg (by omega)]
    exact threeZero_length n hn
  · intro seriesName seasonFolder fileName seasonNumber n episodesInSeason episode hv hp hf
    have hv2 : videoFileExtensions.contains (toLowerString (extname fileName)) = true := hv
    rw [generateEpisodeName]
    simp only [hv2, not_true_eq_false, if_false, hp, hf]
    exact ⟨trivial, rfl⟩

/-! ## The rename flag and unchanged mappings -/

/-- Joining the same directory with two names gives equal paths exactly for
equal names. -/
theorem pathJoin_eq_iff (dir a b : String) : pathJoin dir a = pathJoin dir b ↔ a = b := by
  constructor
  · intro h
    have hd := congrArg String.data h
    simp only [pathJoin, String.data_append] at hd
    exact String.ext (List.append_cancel_left hd)
  · intro h
    rw [h]

/-- C7: for every mapping the builder or a manual reassignment produces,
the rename flag is true exactly when the original and proposed paths
differ. -/
theorem rename_iff_path_changed (seriesName seasonFolder : String) (seasonNumber : Nat)
    (fileName : String) (episodesInSeason : List Episode)
    (forceEpisodeNumber : Option Nat) :
    ((generateEpisodeName seriesName seasonFolder seasonNumber fileName episodesInSeason
        forceEpisodeNumber).value.rename = true
      ↔ (generateEpisodeName seriesName seasonFolder seasonNumber fileName episodesInSeason
          forceEpisodeNumber).value.originalPath
        ≠ (generateEpisodeName seriesName seasonFolder seasonNumber fileName episodesInSeason
            forceEpisodeNumber).value.updatedPath)
    ∧ ((unchangedEpisodeMapping seasonFolder seasonNumber fileName).value.rename = true
      ↔ (unchangedEpisodeMapping seasonFolder seasonNumber fileName).value.originalPath
        ≠ (unchangedEpisodeMapping seasonFolder seasonNumber fileName).value.updatedPath) := by
  have hunch : ((unchangedEpisodeMapping seasonFolder seasonNumber fileName).value.rename = true
      ↔ (unchangedEpisodeMapping seasonFolder seasonNumber fileName).value.originalPath
        ≠ (unchangedEpisodeMapping seasonFolder seasonNumber fileName).value.updatedPath) := by
    simp [unchangedEpisodeMapping]
  refine ⟨?_, hunch⟩
  simp only [generateEpisodeName]
  split
  · exact hunch
  · cases hn : (match forceEpisodeNumber with
      | some n => some n
      | none => parseEpisodeNumber fileName) with
    | none => simpa only [hn] using hunch
    | some n =>
      simp only [hn]
      cases hf : episodesInSeason.find? (fun episode => episode.airedEpisodeNumber == n) with
      | none => exact hunch
      | some episode =>
        simp only [bne_iff_ne, ne_eq, pathJoin_eq_iff]

/-- C8: a non-video file, a video file with no parsable number, and a video
file whose number matches no episode of the season all become the
unchanged mapping: identical paths, no episode, rename false, and the
display name is the file name itself. -/
theorem unmatched_file_unchanged (seriesName seasonFolder : String) (seasonNumber : Nat)
    (fileName : String) (episodesInSeason : List Episode)
    (h : isVideoFile fileName = false
      ∨ parseEpisodeNumber fileName = none
      ∨ ∃ n, parseEpisodeNumber fileName = some n
          ∧ episodesInSeason.find? (fun e => e.airedEpisodeNumber == n) = none) :
    generateEpisodeName seriesName seasonFolder seasonNumber fileName episodesInSeason none
      = unchangedEpisodeMapping seasonFolder seasonNumber fileName
    ∧ (unchangedEpisodeMapping seasonFolder seasonNumber fileName).value.originalPath
      = (unchangedEpisodeMapping seasonFolder seasonNumber fileName).value.updatedPath
    ∧ (unchangedEpisodeMapping seasonFolder seasonNumber fileName).value.episode = none
    ∧ (unchangedEpisodeMapping seasonFolder seasonNumber fileName).value.rename = false
    ∧ (unchangedEpisodeMapping seasonFolder seasonNumber fileName).name = fileName := by
  refine ⟨?_, rfl, rfl, rfl, rfl⟩
  rw [generateEpisodeName]
  rcases h with hv | hp | ⟨n, hp, hf⟩
  · have hv2 : videoFileExtensions.contains (toLowerString (extname fileName)) = false := hv
    rw [if_pos (by simpa using hv2)]
  · split
    · rfl
    · simp only [hp]
  · split
    · rfl
    · simp only [hp, hf]

/-- Witness for C8 at concrete inputs: a text file, a video without a
number, and a video with a number no episode has. -/
theorem unmatched_file_unchanged_witness :
    generateEpisodeName "Show" "/tv/Season 1" 1 "readme.txt"
        [{ id := 11, airedSeason := 1, airedEpisodeNumber := 1, episodeName := "Pilot" }] none
      = unchangedEpisodeMapping "/tv/Season 1" 1 "readme.txt"
    ∧ (unchangedEpisodeMapping "/tv/Season 1" 1 "readme.txt").value.originalPath
      = (unchangedEpisodeMapping "/tv/Season 1" 1 "readme.txt").value.updatedPath
    ∧ (unchangedEpisodeMapping "/tv/Season 1" 1 "readme.txt").value.episode = none
    ∧ (unchangedEpisodeMapping "/tv/Season 1" 1 "readme.txt").value.rename = false
    ∧ (unchangedEpisodeMapping "/tv/Season 1" 1 "readme.txt").name = "readme.txt" :=
  unmatched_file_unchanged "Show" "/tv/Season 1" 1 "readme.txt"
    [{ id := 11, airedSeason := 1, airedEpisodeNumber := 1, episodeName := "Pilot" }]
    (Or.inl (by decide))

/-! ## Lemmas about the season ordering (claim C2) -/

/-- The sort key of a mapping: its matched episode number, if any. -/
def mappingEpisodeNumber (m : EpisodeMapping) : Option Nat :=
  m.value.episode.map (fun e => e.airedEpisodeNumber)

/-- The total preorder the comparator induces: numbers ascending, no
number greatest. -/
def optKeyLE : Option Nat → Option Nat → Prop
  | _, none => True
  | none, some _ => False
  | some a, some b => a ≤ b

instance : DecidableRel optKeyLE := fun a b => by
  cases a <;> cases b <;> simp only [optKeyLE] <;> infer_instance

/-- The comparator orders a before b exactly when the keys are in
optKeyLE. -/
theorem sortEpisodeMappings_nonpos_iff (a b : EpisodeMapping) :
    sortEpisodeMappings a b ≤ 0
      ↔ optKeyLE (mappingEpisodeNumber a) (mappingEpisodeNumber b) := by
  rw [sortEpisodeMappings]
  cases ha : a.value.episode with
  | none =>
    cases hb : b.value.episode with
    | none => simp [mappingEpisodeNumber, ha, hb, optKeyLE]
    | some e2 => simp [mappingEpisodeNumber, ha, hb, optKeyLE]
  | some e1 =>
    cases hb : b.value.episode with
    | none => simp [mappingEpisodeNumber, ha, hb, optKeyLE]
    | some e2 =>
      simp only [mappingEpisodeNumber, ha, hb, Option.map_some', optKeyLE]
      split
      · omega
      · omega

theorem optKeyLE_trans {a b c : Option Nat} (h1 : optKeyLE a b) (h2 : optKeyLE b c) :
    optKeyLE a c := by
  cases a <;> cases b <;> cases c <;> simp_all only [optKeyLE]
  omega

theorem optKeyLE_total (a b : Option Nat) : optKeyLE a b ∨ optKeyLE b a := by
  cases a <;> cases b <;> simp only [optKeyLE] <;>
    first
    | exact Or.inl trivial
    | exact Or.inr trivial
    | omega

/-- The pairwise order the sorted list satisfies. -/
def mappingLE (a b : EpisodeMapping) : Prop :=
  optKeyLE (mappingEpisodeNumber a) (mappingEpisodeNumber b)

theorem mem_orderedInsertMapping (a x : EpisodeMapping) :
    ∀ l : List EpisodeMapping, x ∈ orderedInsertMapping a l → x = a ∨ x ∈ l := by
  intro l
  induction l with
  | nil =>
    intro h
    rw [orderedInsertMapping] at h
    exact Or.inl (List.mem_singleton.mp h)
  | cons b l ih =>
    intro h
    rw [orderedInsertMapping] at h
    split at h
    · rcases List.mem_cons.mp h with h1 | h1
      · exact Or.inl h1
      · exact Or.inr h1
    · rcases List.mem_cons.mp h with h1 | h1
      · exact Or.inr (h1 ▸ List.mem_cons_self _ _)
      · rcases ih h1 with h2 | h2
        · exact Or.inl h2
        · exact Or.inr (List.mem_cons_of_mem _ h2)

theorem pairwise_orderedInsertMapping (a : EpisodeMapping) :
    ∀ l : List EpisodeMapping, l.Pairwise mappingLE →
      (orderedInsertMapping a l).Pairwise mappingLE := by
  intro l
  induction l with
  | nil =>
    intro _
    rw [orderedInsertMapping]
    exact List.pairwise_singleton _ _
  | cons b l ih =>
    intro h
    rcases List.pairwise_cons.mp h with ⟨hb, hl⟩
    rw [orderedInsertMapping]
    split
    · next hab =>
      have hab2 : mappingLE a b := (sortEpisodeMappings_nonpos_iff a b).mp hab
      refine List.pairwise_cons.mpr ⟨?_, h⟩
      intro x hx
      rcases List.mem_cons.mp hx with h1 | h1
      · exact h1 ▸ hab2
      · exact optKeyLE_trans hab2 (hb x h1)
    · next hab =>
      have hba : mappingLE b a := by
        rcases optKeyLE_total (mappingEpisodeNumber a) (mappingEpisodeNumber b) with h1 | h1
        · exact absurd ((sortEpisodeMappings_nonpos_iff a b).mpr h1) hab
        · exact h1
      refine List.pairwise_cons.mpr ⟨?_, ih hl⟩
      intro x hx
      rcases mem_orderedInsertMapping a x l hx with h1 | h1
      · exact h1 ▸ hba
      · exact hb x h1

/-- The stable sort of the comparator yields a list pairwise ordered by
the induced preorder. -/
theorem pairwise_sortMappings :
    ∀ l : List EpisodeMapping, (sortMappings l).Pairwise mappingLE := by
  intro l
  induction l with
  | nil => exact List.Pairwise.nil
  | cons a l ih => exact pairwise_orderedInsertMapping a (sortMappings l) ih

/-- Unmatched entries pass unchanged through an insertion of an unmatched
entry: it is placed before the first unmatched entry, which follows it in
the original order. -/
theorem filter_orderedInsertMapping_none (a : EpisodeMapping)
    (ha : a.value.episode = none) :
    ∀ l : List EpisodeMapping,
      (orderedInsertMapping a l).filter (fun m => m.value.episode.isNone)
        = a :: l.filter (fun m => m.value.episode.isNone) := by
  intro l
  induction l with
  | nil =>
    rw [orderedInsertMapping]
    simp [ha]
  | cons b l ih =>
    rw [orderedInsertMapping]
    split
    · next hab =>
      simp [List.filter_cons, ha]
    · next hab =>
      have hb : b.value.episode.isNone = false := by
        cases hbe : b.value.episode with
        | none =>
          exfalso
          apply hab
          rw [sortEpisodeMappings]
          simp [ha, hbe]
        | some e => rfl
      rw [List.filter_cons, List.filter_cons]
      simp only [hb, Bool.false_eq_true, if_false, ih]

/-- A matched entry changes no unmatched entry and adds none. -/
theorem filter_orderedInsertMapping_some (a : EpisodeMapping)
    (ha : a.value.episode.isNone = false) :
    ∀ l : List EpisodeMapping,
      (orderedInsertMapping a l).filter (fun m => m.value.episode.isNone)
        = l.filter (fun m => m.value.episode.isNone) := by
  intro l
  induction l with
  | nil =>
    rw [orderedInsertMapping]
    simp [List.filter_cons, ha]
  | cons b l ih =>
    rw [orderedInsertMapping]
    split
    · rw [List.filter_cons, List.filter_cons]
      simp only [ha, Bool.false_eq_true, if_false]
    · rw [List.filter_cons, List.filter_cons, ih]

/-- The sort is a stable partition for the unmatched entries: they come
out exactly as they went in. -/
theorem filter_sortMappings (l : List EpisodeMapping) :
    (sortMappings l).filter (fun m => m.value.episode.isNone)
      = l.filter (fun m => m.value.episode.isNone) := by
  induction l with
  | nil => rfl
  | cons a l ih =>
    show (orderedInsertMapping a (sortMappings l)).filter (fun m => m.value.episode.isNone)
      = (a :: l).filter (fun m => m.value.episode.isNone)
    cases ha : a.value.episode with
    | none =>
      rw [filter_orderedInsertMapping_none a ha, ih, List.filter_cons]
      simp [ha]
    | some e =>
      have ha2 : a.value.episode.isNone = false := by rw [ha]; rfl
      rw [filter_orderedInsertMapping_some a ha2, ih, List.filter_cons]
      simp only [ha2, Bool.false_eq_true, if_false]

/-- A pairwise-ordered list is ordered between any two positions. -/
theorem pairwise_getElem_opt {R : EpisodeMapping → EpisodeMapping → Prop}
    {l : List EpisodeMapping} (h : l.Pairwise R) {i j : Nat} (hij : i < j)
    {m1 m2 : EpisodeMapping} (h1 : l[i]? = some m1) (h2 : l[j]? = some m2) :
    R m1 m2 := by
  rcases List.getElem?_eq_some.mp h1 with ⟨hi, e1⟩
  rcases List.getElem?_eq_some.mp h2 with ⟨hj, e2⟩
  have hr := List.pairwise_iff_get.mp h ⟨i, hi⟩ ⟨j, hj⟩ hij
  rw [show l.get ⟨i, hi⟩ = l[i] from rfl, show l.get ⟨j, hj⟩ = l[j] from rfl, e1, e2] at hr
  exact hr

/-- C2 amended: the season list the builder produces is the stable sort of
the per-file mappings; in any sorted mapping list the matched entries are
in ascending (not necessarily strict: two files can match the same
episode) order of episode number, every unmatched entry follows all
matched ones, and the unmatched entries keep their original relative
order. -/
theorem season_mapping_sorted_stable (seasonFolder : String) (season : Nat)
    (seriesDetails : Series) (files : List String) (l : List EpisodeMapping) :
    generateEpisodeNamesForSeason seasonFolder season seriesDetails files
      = sortMappings (files.map (fun fileName =>
          generateEpisodeName seriesDetails.seriesName seasonFolder season fileName
            (seriesDetails.episodes.filter (fun episode => episode.airedSeason == season))
            none))
    ∧ (∀ (i j : Nat) (m1 m2 : EpisodeMapping) (e1 e2 : Episode), i < j →
        (sortMappings l)[i]? = some m1 → (sortMappings l)[j]? = some m2 →
        m1.value.episode = some e1 → m2.value.episode = some e2 →
        e1.airedEpisodeNumber ≤ e2.airedEpisodeNumber)
    ∧ (∀ (i j : Nat) (m1 m2 : EpisodeMapping), i < j →
        (sortMappings l)[i]? = some m1 → (sortMappings l)[j]? = some m2 →
        m1.value.episode = none → m2.value.episode = none)
    ∧ (sortMappings l).filter (fun m => m.value.episode.isNone)
        = l.filter (fun m => m.value.episode.isNone) := by
  refine ⟨rfl, ?_, ?_, filter_sortMappings l⟩
  · intro i j m1 m2 e1 e2 hij h1 h2 he1 he2
    have hr := pairwise_getElem_opt (pairwise_sortMappings l) hij h1 h2
    unfold mappingLE mappingEpisodeNumber at hr
    rw [he1, he2] at hr
    exact hr
  · intro i j m1 m2 hij h1 h2 he1
    have hr := pairwise_getElem_opt (pairwise_sortMappings l) hij h1 h2
    unfold mappingLE mappingEpisodeNumber at hr
    rw [he1] at hr
    cases he2 : m2.value.episode with
    | none => rfl
    | some e =>
      rw [he2] at hr
      exact absurd hr (by simp [optKeyLE])

/-- A series whose season 1 has a single episode. -/
def seriesWithOnePilot : Series :=
  { id := 1
  , seriesName := "Show"
  , episodes := [{ id := 11, airedSeason := 1, airedEpisodeNumber := 1, episodeName := "Pilot" }] }

/-- Two files of one season folder that both parse to episode number 1. -/
def duplicateMatchMappings : List EpisodeMapping :=
  generateEpisodeNamesForSeason "/tv/Show/Season 1" 1 seriesWithOnePilot
    ["a.E01.mkv", "b.1x01.mkv"]

/-- C2 counterexample: with two files both matching episode 1, the built
season list is not strictly ascending by matched episode number — the two
matched entries carry the same number. -/
theorem season_mapping_not_strictly_ascending :
    ¬ (∀ (i j : Nat) (m1 m2 : EpisodeMapping) (e1 e2 : Episode), i < j →
        duplicateMatchMappings[i]? = some m1 → duplicateMatchMappings[j]? = some m2 →
        m1.value.episode = some e1 → m2.value.episode = some e2 →
        e1.airedEpisodeNumber < e2.airedEpisodeNumber) := by
  intro h
  have h01 := h 0 1
    (generateEpisodeName "Show" "/tv/Show/Season 1" 1 "a.E01.mkv"
      (seriesWithOnePilot.episodes.filter (fun episode => episode.airedSeason == 1)) none)
    (generateEpisodeName "Show" "/tv/Show/Season 1" 1 "b.1x01.mkv"
      (seriesWithOnePilot.episodes.filter (fun episode => episode.airedSeason == 1)) none)
    { id := 11, airedSeason := 1, airedEpisodeNumber := 1, episodeName := "Pilot" }
    { id := 11, airedSeason := 1, airedEpisodeNumber := 1, episodeName := "Pilot" }
    (by omega) (by decide) (by decide) (by decide) (by decide)
  exact (by decide : ¬ ((1 : Nat) < 1)) h01

/-! ## Lemmas about season folder selection (claim C9) -/

/-- Keyed assignment only yields pairs that were already there or the
assigned pair. -/
theorem mem_insertSeasonEntry {acc : SeasonMapping} {k : Nat} {v : SeasonEntry}
    {q : Nat × SeasonEntry} (h : q ∈ insertSeasonEntry acc k v) :
    q ∈ acc ∨ q = (k, v) := by
  rw [insertSeasonEntry] at h
  split at h
  · rcases List.mem_map.mp h with ⟨p, hp, hq⟩
    by_cases hk : p.1 == k
    · rw [if_pos hk] at hq
      exact Or.inr hq.symm
    · rw [if_neg hk] at hq
      exact Or.inl (hq ▸ hp)
  · rcases List.mem_append.mp h with h1 | h1
    · exact Or.inl h1
    · exact Or.inr (List.mem_singleton.mp h1)

/-- Every pair of the built object comes from the starting object or from
one of the folded season folders. -/
theorem mem_foldl_insertSeasonEntry (f : FolderSeasonMatch → SeasonEntry) :
    ∀ (L : List FolderSeasonMatch) (acc : SeasonMapping) (q : Nat × SeasonEntry),
      q ∈ L.foldl (fun acc fsi => insertSeasonEntry acc fsi.season (f fsi)) acc →
      q ∈ acc ∨ ∃ fsi ∈ L, q = (fsi.season, f fsi) := by
  intro L
  induction L with
  | nil => intro acc q h; exact Or.inl h
  | cons fsi L ih =>
    intro acc q h
    rcases ih _ q h with h1 | ⟨fsi2, hmem, hq⟩
    · rcases mem_insertSeasonEntry h1 with h2 | h2
      · exact Or.inl h2
      · exact Or.inr ⟨fsi, List.mem_cons_self _ _, h2⟩
    · exact Or.inr ⟨fsi2, List.mem_cons_of_mem _ hmem, hq⟩

/-- Every FolderSeasonMatch comes from a folder with a parsable season
number. -/
theorem mem_seasonFoldersOf {folders : List String} {fsi : FolderSeasonMatch}
    (h : fsi ∈ seasonFoldersOf folders) :
    ∃ folderName ∈ folders, parseSeasonNumber folderName = some fsi.season
      ∧ fsi.folderName = folderName := by
  rcases List.mem_filterMap.mp h with ⟨folderName, hmem, hsome⟩
  rcases Option.map_eq_some'.mp hsome with ⟨season, hparse, heq⟩
  refine ⟨folderName, hmem, ?_, ?_⟩
  · rw [hparse, ← heq]
  · rw [← heq]

/-- C9: every season entry of the built SeasonMapping comes from a
subfolder whose name contains a digit run, keyed by the number parsed from
the first such run; a folder with no parsable number contributes no entry,
so its files are never mapped; and two sample folder names. -/
theorem season_entries_only_from_numbered_folders (seriesDirectory : String)
    (seriesDetails : Series) (folders : List String) (filesOf : String → List String) :
    (∀ (season : Nat) (entry : SeasonEntry),
      (season, entry) ∈ generateEpisodeNames seriesDirectory seriesDetails folders filesOf →
      ∃ folderName ∈ folders, parseSeasonNumber folderName = some season
        ∧ entry.folderName = folderName)
    ∧ (∀ folderName ∈ folders, parseSeasonNumber folderName = none →
        ∀ (season : Nat) (entry : SeasonEntry),
          (season, entry) ∈ generateEpisodeNames seriesDirectory seriesDetails folders filesOf →
          entry.folderName ≠ folderName)
    ∧ parseSeasonNumber "Season 12" = some 12
    ∧ parseSeasonNumber "Specials" = none := by
  have main : ∀ (season : Nat) (entry : SeasonEntry),
      (season, entry) ∈ generateEpisodeNames seriesDirectory seriesDetails folders filesOf →
      ∃ folderName ∈ folders, parseSeasonNumber folderName = some season
        ∧ entry.folderName = folderName := by
    intro season entry h
    rcases mem_foldl_insertSeasonEntry
        (seasonEntryFor seriesDirectory seriesDetails filesOf)
        (seasonFoldersOf folders) [] (season, entry) h with h1 | ⟨fsi, hmem, hq⟩
    · cases h1
    · rcases mem_seasonFoldersOf hmem with ⟨folderName, hf, hparse, hname⟩
      have hseason : season = fsi.season := congrArg Prod.fst hq
      have hentry : entry = seasonEntryFor seriesDirectory seriesDetails filesOf fsi :=
        congrArg Prod.snd hq
      refine ⟨folderName, hf, ?_, ?_⟩
      · rw [hseason]; exact hparse
      · rw [hentry]
        show fsi.folderName = folderName
        exact hname
  refine ⟨main, ?_, by decide, by decide⟩
  intro folderName hmem hnone season entry h hname
  rcases main season entry h with ⟨folderName2, _, hparse2, hname2⟩
  rw [hname] at hname2
  rw [hname2] at hnone
  rw [hnone] at hparse2
  cases hparse2

/-- Witness for C9 at a concrete directory listing: the single entry of
the build for folders Season 1 and Specials comes from Season 1. -/
theorem season_entries_only_from_numbered_folders_witness :
    ∃ folderName ∈ ["Season 1", "Specials"],
      parseSeasonNumber folderName = some 1
      ∧ (SeasonEntry.mk "Season 1" []).folderName = folderName :=
  (season_entries_only_from_numbered_folders "/tv" seriesWithOnePilot
    ["Season 1", "Specials"] (fun _ => [])).1 1 (SeasonEntry.mk "Season 1" [])
    (by decide)

/-! ## The batch rename executor (claim C1) -/

/-- C1 amended: which renames are issued and how many are counted does not
depend on any failure — every rename-flagged item is attempted and counted
(siblings of a failing item proceed) — but the completion count is
reported (logged) exactly when every attempted rename succeeds; a single
failure, being uncaught, suppresses the report. -/
theorem renameEpisodes_spec (fs : String → String → Bool) (episodeRenames : SeasonMapping) :
    (renameEpisodes fs episodeRenames).attempted
      = (renameEpisodes (fun _ _ => true) episodeRenames).attempted
    ∧ (renameEpisodes fs episodeRenames).renamedFileCount
      = ((episodeRenames.map (fun p => p.2.episodeMappings)).flatten.filter
          (fun episodeMapping => episodeMapping.value.rename)).length
    ∧ ((renameEpisodes fs episodeRenames).reportedCount
          = some (renameEpisodes fs episodeRenames).renamedFileCount
        ↔ ∀ pr ∈ (renameEpisodes fs episodeRenames).attempted, fs pr.1 pr.2 = true) := by
  refine ⟨rfl, rfl, ?_⟩
  rw [renameEpisodes]
  simp only []
  constructor
  · intro h pr hpr
    by_cases hall : ((episodeRenames.map (fun p => p.2.episodeMappings)).flatten.filter
        (fun episodeMapping => episodeMapping.value.rename)).all
        (fun episodeMapping => fs episodeMapping.value.originalPath episodeMapping.value.updatedPath)
    · rcases List.mem_map.mp hpr with ⟨m, hm, hpr2⟩
      have := List.all_eq_true.mp hall m hm
      rw [← hpr2]
      exact this
    · exfalso
      rw [if_neg] at h
      · exact Option.noConfusion h
      · intro hcontra
        apply hall
        rw [List.all_eq_true]
        intro m hm
        have := List.all_eq_true.mp hcontra (m.value.originalPath, m.value.updatedPath)
          (List.mem_map.mpr ⟨m, hm, rfl⟩)
        exact this
  · intro h
    rw [if_pos]
    rw [List.all_eq_true]
    intro pr hpr
    exact h pr hpr

/-- One season entry whose two mappings both carry rename = true. -/
def failingRenameBatch : SeasonMapping :=
  [(1, { folderName := "Season 1", episodeMappings := duplicateMatchMappings })]

/-- A rename outcome where the first file's rename fails with an IOError
and every other rename succeeds. -/
def failingFs : String → String → Bool :=
  fun originalPath _ => originalPath != "/tv/Show/Season 1/a.E01.mkv"

/-- C1 counterexample: with one failing rename in a two-item batch, both
sibling renames are still issued, but the executor reports no completion
count at all — the failure is uncaught, so the count log never runs. -/
theorem renameEpisodes_failure_not_reported :
    (renameEpisodes failingFs failingRenameBatch).attempted.length = 2
    ∧ (renameEpisodes failingFs failingRenameBatch).renamedFileCount = 2
    ∧ (renameEpisodes failingFs failingRenameBatch).reportedCount = none := by
  refine ⟨by decide, by decide, by decide⟩

/-! ## Workflow cancellation transitions (claim C6) -/

/-- C6 counterexample: escape-cancelling the assign-episode prompt lands in
series-name, not in episode-renames as the claim states for every
cancellation. -/
theorem assign_episode_escape_not_to_episode_renames :
    (cancelStep { prompt := .assignEpisode, currentEpisodeRenames := some [] }
        CancelEvent.escape).prompt = PromptState.seriesName
    ∧ (cancelStep { prompt := .assignEpisode, currentEpisodeRenames := some [] }
        CancelEvent.escape).prompt ≠ PromptState.episodeRenames := by
  refine ⟨rfl, by decide⟩

/-- C6 amended: series-suggestions cancels to series-name (never to
folder-selection) and series-language cancels to folder-selection on
either cancellation channel; backspace-cancelling assign-episode returns
to episode-renames with the SeasonMapping structure retained; but
escape-cancelling assign-episode falls back to series-name (the structure
field itself is not cleared by that step). -/
theorem pipeline_cancellation_targets (e : CancelEvent) (m : Option SeasonMapping) :
    cancelReturnState PromptState.seriesSuggestions e = some PromptState.seriesName
    ∧ cancelReturnState PromptState.seriesSuggestions e ≠ some PromptState.folderSelection
    ∧ cancelReturnState PromptState.seriesLanguage e = some PromptState.folderSelection
    ∧ cancelStep { prompt := .assignEpisode, currentEpisodeRenames := m } CancelEvent.backspace
      = { prompt := .episodeRenames, currentEpisodeRenames := m }
    ∧ cancelStep { prompt := .assignEpisode, currentEpisodeRenames := m } CancelEvent.escape
      = { prompt := .seriesName, currentEpisodeRenames := m } := by
  cases e <;>
    exact ⟨rfl, by simp [cancelReturnState], rfl, rfl, rfl⟩

/-! ## Move-folder self-containment guard (claim C10) -/

/-- A string is a prefix of itself extended by anything. -/
theorem strStartsWith_append (pre t : String) : strStartsWith (pre ++ t) pre = true := by
  rw [strStartsWith, List.isPrefixOf_iff_prefix]
  have : (pre ++ t).toList = pre.toList ++ t.toList := by
    show (pre ++ t).data = pre.data ++ t.data
    exact String.data_append pre t
  rw [this]
  exact List.prefix_append _ _

/-- C10: a candidate destination equal to the moved folder or nested under
it is disabled. -/
theorem move_into_self_disabled (currentDirectory folderToMove folderName : String)
    (h : pathJoin currentDirectory folderName = folderToMove
      ∨ ∃ rest, pathJoin currentDirectory folderName = folderToMove ++ "/" ++ rest) :
    (moveFolderOption currentDirectory folderToMove folderName).disabled = true := by
  show strStartsWith (pathJoin currentDirectory folderName) folderToMove = true
  rcases h with h | ⟨rest, h⟩
  · rw [h]
    simpa using strStartsWith_append folderToMove ""
  · rw [h, String.append_assoc]
    exact strStartsWith_append folderToMove ("/" ++ rest)

/-- Witness for C10: moving /media/A, both candidate A itself (browsed
from /media) and candidate B (browsed from inside /media/A, destination
/media/A/B) are disabled. -/
theorem move_into_self_disabled_witness :
    (moveFolderOption "/media" "/media/A" "A").disabled = true
    ∧ (moveFolderOption "/media/A" "/media/A" "B").disabled = true :=
  ⟨move_into_self_disabled "/media" "/media/A" "A" (Or.inl (by decide)),
   move_into_self_disabled "/media/A" "/media/A" "B" (Or.inr ⟨"B", by decide⟩)⟩

end SeriesRename
